import Mathlib

/-!
# Verification of the orafce `dbms_assert` input-sanitization core

Shallow embedding of `src/assert.c`: the qualified-name parser
`ParseIdentifierString`, the simple-name validator `check_sql_name`, and the
public entry points `dbms_assert_qualified_sql_name`,
`dbms_assert_simple_sql_name`, `dbms_assert_schema_name`,
`dbms_assert_object_name` and `dbms_assert_enquote_literal`.

Strings are modelled as `List Char` (the byte strings handled by the C code
are ASCII at every decision point; `text_to_cstring` output contains no NUL,
so end-of-list models the terminating `'\0'`).  A SQL-level NULL argument is
modelled as `none : Option (List Char)`.
-/

namespace Orafce

/-- C `isspace` over the default ("C") locale: space, `\t`, `\n`, `\v`, `\f`, `\r`. -/
def isCSpace (c : Char) : Bool :=
  c = ' ' || c = '\t' || c = '\n' || c = '\x0b' || c = '\x0c' || c = '\r'

/-- C `isalnum` over the default ("C") locale: ASCII letters and digits. -/
def isCAlnum (c : Char) : Bool :=
  ('a' ≤ c && c ≤ 'z') || ('A' ≤ c && c ≤ 'Z') || ('0' ≤ c && c ≤ '9')

/-- The four error conditions raised by `assert.c` through `CUSTOM_EXCEPTION`. -/
inductive ErrorKind where
  | InvalidSchemaName
  | InvalidObjectName
  | NotSimpleSqlName
  | NotQualifiedSqlName
deriving DecidableEq, Repr

/-- One segment recognised by `ParseIdentifierString`: the span between
`curname` and `endp` (with `""` pairs already collapsed by the `memmove`
in the quoted branch), plus whether it came from the quoted branch. -/
structure NamePart where
  text : List Char
  wasQuoted : Bool
deriving DecidableEq, Repr

/-- The `while (isspace((unsigned char) *nextp)) nextp++` loops of
`ParseIdentifierString`. -/
def dropSpaces : List Char → List Char
  | [] => []
  | c :: t => if isCSpace c then dropSpaces t else c :: t

/-- The quoted-name scan of `ParseIdentifierString` (lines 71-84), applied to
the characters after the opening quote: `strchr` finds the next `"`; if the
character after it is another `"` the pair is collapsed (`memmove`) and the
scan resumes after the pair; otherwise the quote found terminates the name.
Returns the collapsed content and the characters after the terminating quote,
or `none` when `strchr` finds no quote (mismatched quotes, line 76). -/
def scanQuoted : List Char → Option (List Char × List Char)
  | [] => none
  | '"' :: '"' :: t => (scanQuoted t).map (fun p => ('"' :: p.1, p.2))
  | '"' :: t => some ([], t)
  | c :: t => (scanQuoted t).map (fun p => (c :: p.1, p.2))

/-- The unquoted-name scan of `ParseIdentifierString` (lines 89-96): extend
while the character is not `.`, not whitespace and not end of string, failing
(`none`) on any character that is not alphanumeric or `_`.  Returns the
scanned run and the rest. -/
def scanUnquoted : List Char → Option (List Char × List Char)
  | [] => some ([], [])
  | c :: t =>
    if c = '.' || isCSpace c then some ([], c :: t)
    else if isCAlnum c || c = '_' then
      (scanUnquoted t).map (fun p => (c :: p.1, p.2))
    else none

/-- The `if (*nextp == '\"') ... else ...` body at the top of the
`ParseIdentifierString` loop (lines 68-100): consume one quoted name (via the
quote scan) or one unquoted name (failing when the unquoted run is empty,
line 98-99).  Returns the consumed part and the unconsumed rest. -/
def parseStep (l : List Char) : Option (NamePart × List Char) :=
  match l with
  | '"' :: t =>
    match scanQuoted t with
    | none => none
    | some (content, rest) => some (⟨content, true⟩, rest)
  | _ =>
    match scanUnquoted l with
    | none => none
    | some (content, rest) =>
      if content = [] then none else some (⟨content, false⟩, rest)

/-- The `do ... while (!done)` loop of `ParseIdentifierString` (lines 63-118),
entered at the start of an identifier.  Each iteration consumes one quoted or
unquoted name (`parseStep`), then trailing whitespace, then either a `.`
(skip whitespace and continue with the next name, lines 105-111), end of
string (done, lines 112-113), or fails (lines 114-115).  The fuel argument
only bounds the number of loop iterations; every iteration consumes at least
one character, so `length + 1` fuel is never exhausted. -/
def parseLoop : Nat → List Char → Option (List NamePart)
  | 0, _ => none
  | fuel + 1, l =>
    match parseStep l with
    | none => none
    | some (part, rest) =>
      match dropSpaces rest with
      | '.' :: t2 => (parseLoop fuel (dropSpaces t2)).map (fun ps => part :: ps)
      | [] => some [part]
      | _ => none

/-- `ParseIdentifierString` (lines 50-121): skip leading whitespace; an empty
remainder is accepted with zero parts (lines 59-60); otherwise run the
identifier loop.  `some parts` models a `true` return (with the `curname` /
`endp` spans it walked over), `none` models `false`. -/
def ParseIdentifierString (s : List Char) : Option (List NamePart) :=
  let l := dropSpaces s
  if l.isEmpty then some [] else parseLoop (l.length + 1) l

/-- The quoted-branch loop of `check_sql_name` (lines 291-305), after the
`cp++, len -= 2` initialisation, specialised to the case `len ≥ 0`.
`pos` is the pointer offset into the buffer `s`, the `Nat` argument is the
remaining `len` counter.  Mirrors the C exactly: the loop runs while
`len-- > 0`; on a `"` it returns `false` when the decremented counter is `0`
and otherwise decrements it once more WITHOUT advancing the pointer (the
`*cp != '"'` test on line 299 re-reads the same character and can never
fire); the final `*cp != '"'` test happens once the counter reaches `0`.
A read at an offset `≥ s.length` is past the end of the `len`-byte buffer the
caller handed in; its value depends on adjacent memory, modelled as `none`. -/
def quotedLoop (s : List Char) : Nat → Nat → Option Bool
  | pos, 0 =>
    (match s.get? pos with
     | none => none
     | some c => some (decide (c = '"')))
  | pos, 1 =>
    (match s.get? pos with
     | none => none
     | some c =>
       if c = '"' then some false
       else quotedLoop s (pos + 1) 0)
  | pos, len + 2 =>
    (match s.get? pos with
     | none => none
     | some c =>
       if c = '"' then quotedLoop s (pos + 1) len
       else quotedLoop s (pos + 1) (len + 1))

/-- `check_sql_name` (lines 286-316).  `some b` is the C return value `b`;
`none` records that a character beyond the `len`-byte buffer was read, so the
C result depends on memory outside the input.  The three cases: an empty
buffer dereferences `*cp` out of bounds; a buffer starting with `"` of length
1 sets `len = -1`, skips the loop, and the final `*cp` test on line 304 reads
offset 1, one byte past the buffer; otherwise the quoted loop runs with the
non-negative counter `len - 2`.  The unquoted branch (lines 310-312) reads
exactly offsets `0..len-1` and accepts when all are alphanumeric or `_`. -/
def check_sql_name (s : List Char) : Option Bool :=
  match s with
  | [] => none
  | c :: t =>
    if c = '"' then
      match t with
      | [] => none
      | _ :: _ => quotedLoop s 1 (s.length - 2)
    else some (s.all fun ch => isCAlnum ch || ch = '_')

/-- `dbms_assert_simple_sql_name` (lines 318-339): SQL NULL and the empty
string raise `NotSimpleSqlName`; otherwise `check_sql_name` over the full
buffer decides, and on success the original text datum `sname` is returned
unchanged.  The outer `none` propagates the out-of-bounds case of
`check_sql_name`, whose verdict is not determined by the input alone. -/
def dbms_assert_simple_sql_name (arg : Option (List Char)) :
    Option (Except ErrorKind (List Char)) :=
  match arg with
  | none => some (.error .NotSimpleSqlName)
  | some s =>
    if s.length = 0 then some (.error .NotSimpleSqlName)
    else
      match check_sql_name s with
      | none => none
      | some true => some (.ok s)
      | some false => some (.error .NotSimpleSqlName)

/-- `dbms_assert_qualified_sql_name` (lines 206-222): SQL NULL and the empty
string raise `NotQualifiedSqlName`; otherwise `ParseIdentifierString` runs on
a `text_to_cstring` copy and on success the original datum `qname` is
returned unchanged (the parser's `memmove` mutates only the copy). -/
def dbms_assert_qualified_sql_name (arg : Option (List Char)) :
    Except ErrorKind (List Char) :=
  match arg with
  | none => .error .NotQualifiedSqlName
  | some s =>
    if s.length = 0 then .error .NotQualifiedSqlName
    else if (ParseIdentifierString s).isSome then .ok s
    else .error .NotQualifiedSqlName

/-- `dbms_assert_schema_name` (lines 238-270): SQL NULL and the empty string
raise `InvalidSchemaName` before anything else runs; the remainder
(`stringToQualifiedNameList`, the syscache lookup and the ACL check, lines
254-269) lives in the PostgreSQL host, outside this repository, and is
abstracted as the `resolve` parameter. -/
def dbms_assert_schema_name
    (resolve : List Char → Except ErrorKind (List Char))
    (arg : Option (List Char)) : Except ErrorKind (List Char) :=
  match arg with
  | none => .error .InvalidSchemaName
  | some s =>
    if s.length = 0 then .error .InvalidSchemaName
    else resolve s

/-- `dbms_assert_object_name` (lines 355-379): SQL NULL and the empty string
raise `InvalidObjectName` before anything else runs; the remainder
(`stringToQualifiedNameList` and `RangeVarGetRelid`, lines 370-376) lives in
the PostgreSQL host, outside this repository, and is abstracted as the
`resolve` parameter. -/
def dbms_assert_object_name
    (resolve : List Char → Except ErrorKind (List Char))
    (arg : Option (List Char)) : Except ErrorKind (List Char) :=
  match arg with
  | none => .error .InvalidObjectName
  | some s =>
    if s.length = 0 then .error .InvalidObjectName
    else resolve s

/-- Modelled from the spec: the single-quote doubling performed by the
PostgreSQL builtin `quote_literal`, which `dbms_assert_enquote_literal`
invokes via `DirectFunctionCall1` (line 140) and which is not part of this
repository's sources.  Per spec §4.4 every embedded single-quote character is
doubled and nothing else is changed. -/
def doubleSingleQuotes : List Char → List Char
  | [] => []
  | c :: t =>
    if c = '\'' then c :: c :: doubleSingleQuotes t
    else c :: doubleSingleQuotes t

/-- Modelled from the spec: `dbms_assert_enquote_literal` (lines 137-141)
delegates to the PostgreSQL builtin `quote_literal`, not part of this
repository's sources.  Per spec §4.4 it wraps the value in single quotes,
doubling every embedded single-quote character, with no other
transformation. -/
def dbms_assert_enquote_literal (s : List Char) : List Char :=
  '\'' :: (doubleSingleQuotes s ++ ['\''])

/-- Every occurrence of the quote character `q` in the list is the first or
second member of an immediately adjacent `qq` pair. -/
def quotesPaired (q : Char) : List Char → Bool
  | [] => true
  | [c] => if c = q then false else true
  | c :: d :: t2 =>
    if c = q then
      if d = q then quotesPaired q t2 else false
    else quotesPaired q (d :: t2)

/-- Collapse every adjacent pair of single quotes back into one single quote:
the inverse reading of `doubleSingleQuotes`. -/
def collapsePairs : List Char → List Char
  | [] => []
  | [c] => [c]
  | c :: d :: t =>
    if c = '\'' && d = '\'' then '\'' :: collapsePairs t
    else c :: collapsePairs (d :: t)

theorem dropSpaces_eq_nil (s : List Char) (h : ∀ c ∈ s, isCSpace c = true) :
    dropSpaces s = [] := by
  induction s with
  | nil => rfl
  | cons c t ih =>
    have hc := h c (by simp)
    simp only [dropSpaces, hc, if_pos]
    exact ih fun d hd => h d (by simp [hd])

theorem quotedLoop_isSome (s : List Char) :
    ∀ len pos, pos + len + 1 ≤ s.length → quotedLoop s pos len ≠ none := by
  intro len
  induction len using Nat.strong_induction_on with
  | _ len ih =>
    intro pos hlen
    have hpos : pos < s.length := by omega
    obtain ⟨c, hc⟩ : ∃ c, s.get? pos = some c := ⟨_, List.get?_eq_get hpos⟩
    match len with
    | 0 => simp only [quotedLoop, hc]; simp
    | 1 =>
      simp only [quotedLoop, hc]
      by_cases hq : c = '"'
      · simp [hq]
      · rw [if_neg hq]
        exact ih 0 (by omega) (pos + 1) (by omega)
    | n + 2 =>
      simp only [quotedLoop, hc]
      by_cases hq : c = '"'
      · rw [if_pos hq]
        exact ih n (by omega) (pos + 1) (by omega)
      · rw [if_neg hq]
        exact ih (n + 1) (by omega) (pos + 1) (by omega)

theorem doubleSingleQuotes_cons_shape (d : Char) (t2 : List Char) :
    ∃ r, doubleSingleQuotes (d :: t2) = d :: r := by
  by_cases hd : d = '\'' <;> simp [doubleSingleQuotes, hd]

theorem collapsePairs_doubleSingleQuotes (s : List Char) :
    collapsePairs (doubleSingleQuotes s) = s := by
  induction s with
  | nil => rfl
  | cons c t ih =>
    by_cases hc : c = '\''
    · subst hc
      simp [doubleSingleQuotes, collapsePairs, ih]
    · simp only [doubleSingleQuotes, if_neg hc]
      cases t with
      | nil => simp [doubleSingleQuotes, collapsePairs]
      | cons d t2 =>
        obtain ⟨r, hDr⟩ := doubleSingleQuotes_cons_shape d t2
        rw [hDr]
        simp only [collapsePairs, hc, decide_False, decide_eq_false hc,
          Bool.false_and, Bool.false_eq_true, if_false, List.cons.injEq,
          true_and]
        rw [← hDr, ih]

theorem quotesPaired_doubleSingleQuotes (s : List Char) :
    quotesPaired '\'' (doubleSingleQuotes s) = true := by
  induction s with
  | nil => rfl
  | cons c t ih =>
    by_cases hc : c = '\''
    · subst hc
      simp [doubleSingleQuotes, quotesPaired, ih]
    · simp only [doubleSingleQuotes, if_neg hc]
      cases t with
      | nil => simp [doubleSingleQuotes, quotesPaired, hc]
      | cons d t2 =>
        obtain ⟨r, hDr⟩ := doubleSingleQuotes_cons_shape d t2
        rw [hDr]
        simp only [quotesPaired, if_neg hc]
        rw [← hDr]
        exact ih

theorem parseStep_unquoted (l : List Char) (part : NamePart)
    (rest : List Char) (h : parseStep l = some (part, rest))
    (hq : part.wasQuoted = false) : part.text ≠ [] := by
  unfold parseStep at h
  split at h
  · split at h
    · exact absurd h (by simp)
    · rw [Option.some_inj] at h
      injection h with h1 h2
      rw [← h1] at hq
      simp at hq
  · split at h
    · exact absurd h (by simp)
    · split at h
      · exact absurd h (by simp)
      · rename_i hcontent
        rw [Option.some_inj] at h
        injection h with h1 h2
        rw [← h1]
        simpa using hcontent

theorem parseLoop_unquoted_nonempty :
    ∀ fuel l parts, parseLoop fuel l = some parts →
      ∀ p ∈ parts, p.wasQuoted = false → p.text ≠ [] := by
  intro fuel
  induction fuel with
  | zero =>
    intro l parts h
    simp [parseLoop] at h
  | succ n ih =>
    intro l parts h p hp hq
    rw [parseLoop] at h
    cases hstep : parseStep l with
    | none => rw [hstep] at h; exact absurd h (by simp)
    | some pr =>
      obtain ⟨part, rest⟩ := pr
      rw [hstep] at h
      simp only at h
      split at h
      · rw [Option.map_eq_some'] at h
        obtain ⟨ps, hps, hcons⟩ := h
        subst hcons
        rcases List.mem_cons.mp hp with rfl | hmem
        · exact parseStep_unquoted l p rest hstep hq
        · exact ih _ ps hps p hmem hq
      · rw [Option.some_inj] at h
        subst h
        rcases List.mem_singleton.mp hp with rfl
        exact parseStep_unquoted l p rest hstep hq
      · exact absurd h (by simp)

/-- Claim C1 (code_bug evidence): the spec requires the quoted input
`"ab""cd"`, whose internal quotes are properly doubled, to be accepted by
`simple_sql_name`; the code rejects it.  The quoted loop of `check_sql_name`
decrements `len` for the second quote of a pair without advancing `cp` (the
`*cp != '"'` test on line 299 re-reads the character already known to be a
quote, contradicting its own comment "next char has to be quote"), so the
final position check lands on `c` instead of the closing quote and the call
raises `NotSimpleSqlName`. -/
theorem C1_code_rejects_doubled_quotes :
    dbms_assert_simple_sql_name
        (some ['"', 'a', 'b', '"', '"', 'c', 'd', '"']) =
      some (.error .NotSimpleSqlName) := rfl

/-- Claim C2 counterexample: the qualified-name parser itself succeeds on
the input `""` consisting of a single empty quoted segment, yielding one
part with empty text, and `qualified_sql_name` accepts the input — the
claim says the parser rejects it. -/
theorem C2_empty_quoted_accepted :
    ParseIdentifierString ['"', '"'] = some [⟨[], true⟩] ∧
    dbms_assert_qualified_sql_name (some ['"', '"']) = .ok ['"', '"'] :=
  ⟨rfl, rfl⟩

/-- Claim C2 (amended): for every string on which the qualified-name parser
succeeds, each unquoted part has non-empty text; quoted parts may have
empty text (the empty quoted segment `""` is accepted by the parser). -/
theorem C2_unquoted_parts_nonempty (s : List Char) (parts : List NamePart)
    (h : ParseIdentifierString s = some parts) :
    ∀ p ∈ parts, p.wasQuoted = false → p.text ≠ [] := by
  unfold ParseIdentifierString at h
  by_cases he : (dropSpaces s).isEmpty
  · simp only [he, if_pos] at h
    rw [Option.some_inj] at h
    subst h
    simp
  · simp only [he, if_neg, Bool.false_eq_true, not_false_eq_true] at h
    exact parseLoop_unquoted_nonempty _ _ _ h

/-- Claim C2 witness: the amended theorem applied to the concrete accepted
input `a`, whose single unquoted part is non-empty. -/
theorem C2_witness : (⟨['a'], false⟩ : NamePart).text ≠ [] :=
  C2_unquoted_parts_nonempty ['a'] [⟨['a'], false⟩] rfl
    ⟨['a'], false⟩ (by simp) rfl

/-- Claim C3: for every string not beginning with a double quote,
`simple_sql_name` accepts exactly when the string is non-empty and all its
characters are ASCII letters, digits or underscore, and in every other case
it fails with `NotSimpleSqlName`. -/
theorem C3_unquoted_simple_name (s : List Char)
    (h : s.head? ≠ some '"') :
    (dbms_assert_simple_sql_name (some s) = some (.ok s) ↔
      s ≠ [] ∧ s.all (fun c => isCAlnum c || c = '_') = true) ∧
    (s = [] ∨ s.all (fun c => isCAlnum c || c = '_') = false →
      dbms_assert_simple_sql_name (some s) =
        some (.error .NotSimpleSqlName)) := by
  cases s with
  | nil => simp [dbms_assert_simple_sql_name]
  | cons c t =>
    have hc : ¬c = '"' := by simpa using h
    have hck : check_sql_name (c :: t) =
        some ((c :: t).all fun ch => isCAlnum ch || ch = '_') := by
      simp [check_sql_name, hc]
    cases hall : (c :: t).all fun ch => isCAlnum ch || ch = '_' <;>
      simp [dbms_assert_simple_sql_name, hck, hall]

/-- Claim C3 witness: the concrete simple name `emp_1` is accepted. -/
theorem C3_witness :
    dbms_assert_simple_sql_name (some ['e', 'm', 'p', '_', '1']) =
      some (.ok ['e', 'm', 'p', '_', '1']) :=
  (C3_unquoted_simple_name ['e', 'm', 'p', '_', '1'] (by decide)).1.mpr
    (by decide)

/-- Claim C4: whenever `qualified_sql_name` or `simple_sql_name` succeeds,
the returned value is exactly the input string: the C functions return the
original `text` datum (`qname` / `sname`), never the parse scratch copy. -/
theorem C4_copy_through (s r : List Char) :
    (dbms_assert_qualified_sql_name (some s) = .ok r → r = s) ∧
    (dbms_assert_simple_sql_name (some s) = some (.ok r) → r = s) := by
  constructor
  · intro h
    by_cases h0 : s.length = 0
    · simp [dbms_assert_qualified_sql_name, h0] at h
    · by_cases hp : (ParseIdentifierString s).isSome
      · simp only [dbms_assert_qualified_sql_name, h0, if_neg, hp,
          if_pos, if_true] at h
        exact (Except.ok.inj h).symm
      · simp [dbms_assert_qualified_sql_name, h0, hp] at h
  · intro h
    by_cases h0 : s.length = 0
    · simp [dbms_assert_simple_sql_name, h0] at h
    · rcases hck : check_sql_name s with _ | b
      · simp [dbms_assert_simple_sql_name, h0, hck] at h
      · cases b
        · simp [dbms_assert_simple_sql_name, h0, hck] at h
        · simp [dbms_assert_simple_sql_name, h0, hck] at h
          exact h.symm

/-- Claim C4 witness: the theorem applied to the accepted input `a`. -/
theorem C4_witness :
    dbms_assert_qualified_sql_name (some ['a']) = .ok ['a'] ∧
    (['a'] : List Char) = ['a'] :=
  ⟨rfl, (C4_copy_through ['a'] ['a']).1 rfl⟩

/-- Claim C5: `schema.table` parses into exactly the two unquoted parts
`schema` and `table`; a part position occupied by a `.` (the empty segment
after `schema..`) makes the loop fail, as does end of string right after a
consumed dot (`schema.`), and both concrete inputs are rejected by
`qualified_sql_name` with `NotQualifiedSqlName`. -/
theorem C5_qualified_parsing (fuel : Nat) (t : List Char) :
    ParseIdentifierString "schema.table".data =
      some [⟨"schema".data, false⟩, ⟨"table".data, false⟩] ∧
    parseLoop fuel ('.' :: t) = none ∧
    parseLoop fuel [] = none ∧
    dbms_assert_qualified_sql_name (some "schema..table".data) =
      .error .NotQualifiedSqlName ∧
    dbms_assert_qualified_sql_name (some "schema.".data) =
      .error .NotQualifiedSqlName := by
  refine ⟨rfl, ?_, ?_, rfl, rfl⟩
  · cases fuel <;> rfl
  · cases fuel <;> rfl

/-- Claim C5 witness: the parser-failure conjuncts at concrete fuel and
tail. -/
theorem C5_witness :
    parseLoop 1 ('.' :: ['a']) = none ∧ parseLoop 1 [] = none :=
  ⟨(C5_qualified_parsing 1 ['a']).2.1, (C5_qualified_parsing 1 ['a']).2.2.1⟩

/-- Claim C6: the parser accepts the empty string with zero parts, yet the
`qualified_sql_name` entry point rejects the empty string (and SQL NULL) at
the length guard, before `ParseIdentifierString` is consulted. -/
theorem C6_empty_string :
    ParseIdentifierString [] = some [] ∧
    dbms_assert_qualified_sql_name (some []) = .error .NotQualifiedSqlName ∧
    dbms_assert_qualified_sql_name none = .error .NotQualifiedSqlName :=
  ⟨rfl, rfl, rfl⟩

/-- Claim C7: a SQL NULL argument makes each of the four guarded checks fail
with its own designated error kind, for any behaviour of the external
catalog/ACL lookup. -/
theorem C7_null_rejects
    (resolveSchema resolveObject : List Char → Except ErrorKind (List Char)) :
    dbms_assert_qualified_sql_name none = .error .NotQualifiedSqlName ∧
    dbms_assert_simple_sql_name none = some (.error .NotSimpleSqlName) ∧
    dbms_assert_schema_name resolveSchema none = .error .InvalidSchemaName ∧
    dbms_assert_object_name resolveObject none = .error .InvalidObjectName :=
  ⟨rfl, rfl, rfl, rfl⟩

/-- Claim C7 witness: the theorem instantiated with a concrete lookup. -/
theorem C7_witness :
    dbms_assert_qualified_sql_name none = .error .NotQualifiedSqlName ∧
    dbms_assert_simple_sql_name none = some (.error .NotSimpleSqlName) ∧
    dbms_assert_schema_name (fun s => .ok s) none =
      .error .InvalidSchemaName ∧
    dbms_assert_object_name (fun s => .ok s) none =
      .error .InvalidObjectName :=
  C7_null_rejects (fun s => .ok s) (fun s => .ok s)

/-- Claim C8: `enquote_literal` wraps its argument in single quotes doubling
every embedded single quote and changing nothing else (collapsing the
doubled quotes recovers the argument exactly), so the result starts and
ends with a single-quote character, its interior contains single quotes
only in adjacent pairs, and `O'Brien` becomes `'O''Brien'`. -/
theorem C8_enquote_literal (s : List Char) :
    dbms_assert_enquote_literal s =
      '\'' :: (doubleSingleQuotes s ++ ['\'']) ∧
    (dbms_assert_enquote_literal s).head? = some '\'' ∧
    (dbms_assert_enquote_literal s).getLast? = some '\'' ∧
    quotesPaired '\'' (doubleSingleQuotes s) = true ∧
    collapsePairs (doubleSingleQuotes s) = s ∧
    dbms_assert_enquote_literal ['O', '\'', 'B', 'r', 'i', 'e', 'n'] =
      ['\'', 'O', '\'', '\'', 'B', 'r', 'i', 'e', 'n', '\''] := by
  refine ⟨rfl, rfl, ?_, quotesPaired_doubleSingleQuotes s,
    collapsePairs_doubleSingleQuotes s, rfl⟩
  show ('\'' :: (doubleSingleQuotes s ++ ['\''])).getLast? = some '\''
  rw [show '\'' :: (doubleSingleQuotes s ++ ['\'']) =
      ('\'' :: doubleSingleQuotes s) ++ ['\''] from rfl]
  exact List.getLast?_concat _

/-- Claim C8 witness: the theorem at the concrete input `O'Brien`. -/
theorem C8_witness :
    dbms_assert_enquote_literal ['O', '\'', 'B', 'r', 'i', 'e', 'n'] =
      '\'' :: (doubleSingleQuotes ['O', '\'', 'B', 'r', 'i', 'e', 'n'] ++
        ['\'']) ∧
    (dbms_assert_enquote_literal
      ['O', '\'', 'B', 'r', 'i', 'e', 'n']).head? = some '\'' ∧
    (dbms_assert_enquote_literal
      ['O', '\'', 'B', 'r', 'i', 'e', 'n']).getLast? = some '\'' ∧
    quotesPaired '\''
      (doubleSingleQuotes ['O', '\'', 'B', 'r', 'i', 'e', 'n']) = true ∧
    collapsePairs (doubleSingleQuotes ['O', '\'', 'B', 'r', 'i', 'e', 'n']) =
      ['O', '\'', 'B', 'r', 'i', 'e', 'n'] ∧
    dbms_assert_enquote_literal ['O', '\'', 'B', 'r', 'i', 'e', 'n'] =
      ['\'', 'O', '\'', '\'', 'B', 'r', 'i', 'e', 'n', '\''] :=
  C8_enquote_literal ['O', '\'', 'B', 'r', 'i', 'e', 'n']

/-- Claim C9 counterexample: on the one-character input consisting of a
single double quote — the very input the claim singles out as safe — the
quoted branch sets `len = -1`, skips the loop, and the final `*cp` test on
line 304 dereferences offset 1, one byte past the end of the buffer
(modelled by `check_sql_name` returning `none`). -/
theorem C9_single_quote_reads_past_end : check_sql_name ['"'] = none := rfl

/-- Claim C9 (amended): for every input of length at least 2 whose first
character is a double quote, `check_sql_name` inspects only characters
within the `len` bytes it is given (the model never reaches the
out-of-bounds marker); only the one-character input `"` makes the final
comparison read one byte past the buffer. -/
theorem C9_quoted_reads_in_bounds (s : List Char) (h2 : 2 ≤ s.length)
    (hq : s.head? = some '"') : check_sql_name s ≠ none := by
  cases s with
  | nil => simp at hq
  | cons c t =>
    have hc : c = '"' := by simpa using hq
    subst hc
    cases t with
    | nil => simp at h2
    | cons d t2 =>
      have : check_sql_name ('"' :: d :: t2) =
          quotedLoop ('"' :: d :: t2) 1 (('"' :: d :: t2).length - 2) := rfl
      rw [this]
      apply quotedLoop_isSome
      simp only [List.length_cons]
      omega

/-- Claim C9 witness: the amended theorem at the concrete quoted input
`"a"`. -/
theorem C9_witness : check_sql_name ['"', 'a', '"'] ≠ none :=
  C9_quoted_reads_in_bounds ['"', 'a', '"'] (by decide) (by decide)

/-- Claim C10: every non-empty all-whitespace input passes the length guard
of `qualified_sql_name`, the parser consumes the whitespace, reaches end of
input, succeeds with zero parts, and the original string is returned
unchanged. -/
theorem C10_whitespace_accepted (s : List Char) (h1 : s ≠ [])
    (h2 : ∀ c ∈ s, isCSpace c = true) :
    dbms_assert_qualified_sql_name (some s) = .ok s := by
  have hlen : ¬s.length = 0 := fun h0 => h1 (List.length_eq_zero.mp h0)
  have hd : dropSpaces s = [] := dropSpaces_eq_nil s h2
  simp [dbms_assert_qualified_sql_name, hlen, ParseIdentifierString, hd]

/-- Claim C10 witness: the single-space input is accepted unchanged. -/
theorem C10_witness : dbms_assert_qualified_sql_name (some [' ']) = .ok [' '] :=
  C10_whitespace_accepted [' '] (by decide) (by decide)

end Orafce
